import Mathlib

/-!
Verification of the keyframe animation sampler of the VulkanDemo repository
(`homework/homework1/animator.{h,cpp}` and `transform.{h,cpp}`).

The animator works on `std::vector<float>` timelines and `glm::vec3`/`glm::vec4`
channel arrays.  We embed the float arithmetic as exact rational arithmetic (ℚ)
and every C++ array access `v[i]` as a bounds-checked read in the `Except`
monad: an index outside the array is undefined behaviour in the C++ source and
is modelled as an `outOfBounds` error recording the array and the index.
Runtime `assert` failures (the fail-fast misuse checks of the setters) are
modelled as an `invariantViolation` error.  The `missingData` constructor
exists only so that the specification's `MissingData` failure mode can be
stated; the embedded code never produces it.

The `Transform` class (`transform.{h,cpp}`) is embedded over ℝ, since its
quaternion normalization divides by a square-root length.
-/

/-! ### Data types and glm operations used by `Animator` (exact ℚ arithmetic) -/

/-- Embeds `glm::vec3` with exact rational components. -/
structure Vec3Q where
  x : ℚ
  y : ℚ
  z : ℚ
deriving DecidableEq

/-- Embeds `glm::vec4` with exact rational components (used for the rotation
channel, whose samples are stored as raw 4-float vectors in the source; glm's
`make_quat` reads them in the order x, y, z, w). -/
structure Vec4Q where
  x : ℚ
  y : ℚ
  z : ℚ
  w : ℚ
deriving DecidableEq

/-- Embeds `glm::mat4` over ℚ.  Field `mIJ` is the entry in row `I`, column
`J` of the matrix in the usual mathematical convention (glm stores the matrix
as four columns; glm's `m[c][r]` is `mRC` here). -/
structure Mat4Q where
  m00 : ℚ
  m01 : ℚ
  m02 : ℚ
  m03 : ℚ
  m10 : ℚ
  m11 : ℚ
  m12 : ℚ
  m13 : ℚ
  m20 : ℚ
  m21 : ℚ
  m22 : ℚ
  m23 : ℚ
  m30 : ℚ
  m31 : ℚ
  m32 : ℚ
  m33 : ℚ
deriving DecidableEq

/-- Embeds `glm::mat4(1.0f)`: the identity matrix. -/
def idMat4Q : Mat4Q :=
  ⟨1, 0, 0, 0,
   0, 1, 0, 0,
   0, 0, 1, 0,
   0, 0, 0, 1⟩

/-- Matrix product, row-times-column. -/
def mulMat4Q (a b : Mat4Q) : Mat4Q :=
  ⟨a.m00 * b.m00 + a.m01 * b.m10 + a.m02 * b.m20 + a.m03 * b.m30,
   a.m00 * b.m01 + a.m01 * b.m11 + a.m02 * b.m21 + a.m03 * b.m31,
   a.m00 * b.m02 + a.m01 * b.m12 + a.m02 * b.m22 + a.m03 * b.m32,
   a.m00 * b.m03 + a.m01 * b.m13 + a.m02 * b.m23 + a.m03 * b.m33,
   a.m10 * b.m00 + a.m11 * b.m10 + a.m12 * b.m20 + a.m13 * b.m30,
   a.m10 * b.m01 + a.m11 * b.m11 + a.m12 * b.m21 + a.m13 * b.m31,
   a.m10 * b.m02 + a.m11 * b.m12 + a.m12 * b.m22 + a.m13 * b.m32,
   a.m10 * b.m03 + a.m11 * b.m13 + a.m12 * b.m23 + a.m13 * b.m33,
   a.m20 * b.m00 + a.m21 * b.m10 + a.m22 * b.m20 + a.m23 * b.m30,
   a.m20 * b.m01 + a.m21 * b.m11 + a.m22 * b.m21 + a.m23 * b.m31,
   a.m20 * b.m02 + a.m21 * b.m12 + a.m22 * b.m22 + a.m23 * b.m32,
   a.m20 * b.m03 + a.m21 * b.m13 + a.m22 * b.m23 + a.m23 * b.m33,
   a.m30 * b.m00 + a.m31 * b.m10 + a.m32 * b.m20 + a.m33 * b.m30,
   a.m30 * b.m01 + a.m31 * b.m11 + a.m32 * b.m21 + a.m33 * b.m31,
   a.m30 * b.m02 + a.m31 * b.m12 + a.m32 * b.m22 + a.m33 * b.m32,
   a.m30 * b.m03 + a.m31 * b.m13 + a.m32 * b.m23 + a.m33 * b.m33⟩

/-- Embeds `glm::mix(x, y, a)` on vectors: componentwise `x * (1 - a) + y * a`
(the GLSL linear-interpolation semantics glm implements). -/
def glmMixQ (v1 v2 : Vec3Q) (a : ℚ) : Vec3Q :=
  ⟨v1.x * (1 - a) + v2.x * a, v1.y * (1 - a) + v2.y * a, v1.z * (1 - a) + v2.z * a⟩

/-- Embeds `glm::translate(m, v)`: glm keeps columns 0–2 of `m` and replaces
column 3 by `m[0]*v.x + m[1]*v.y + m[2]*v.z + m[3]`, which is exactly
`m * T(v)` for the canonical translation matrix `T(v)`. -/
def glmTranslateQ (m : Mat4Q) (v : Vec3Q) : Mat4Q :=
  { m with
    m03 := m.m00 * v.x + m.m01 * v.y + m.m02 * v.z + m.m03
    m13 := m.m10 * v.x + m.m11 * v.y + m.m12 * v.z + m.m13
    m23 := m.m20 * v.x + m.m21 * v.y + m.m22 * v.z + m.m23
    m33 := m.m30 * v.x + m.m31 * v.y + m.m32 * v.z + m.m33 }

/-- Error observations of the embedded code: `outOfBounds` is an array access
past the end (undefined behaviour in the C++ source), `invariantViolation` a
failed runtime `assert`; `missingData` is the specification's `MissingData`
failure mode and is never produced by the embedded code. -/
inductive AnimError where
  | invariantViolation
  | missingData
  | outOfBounds (array : String) (index : Nat)
deriving DecidableEq

/-- Bounds-checked array read: `name[i]` in the C++ source. -/
def getE {α : Type} (name : String) (l : List α) (i : Nat) : Except AnimError α :=
  if h : i < l.length then .ok l[i] else .error (.outOfBounds name i)

/-- Embeds `std::upper_bound(l.begin(), l.end(), v)` as an index: the first
position whose element is strictly greater than `v` (equal to `l.length` when
none is), which is what `std::upper_bound` returns on the sorted timelines the
animator is used with. -/
def upperBound (l : List ℚ) (v : ℚ) : Nat :=
  match l with
  | [] => 0
  | x :: xs => if v < x then 0 else upperBound xs v + 1

/-- The private state of `class Animator`. -/
structure AnimState where
  timelineIndex : Int
  currentTime : ℚ
  times : List ℚ
  translation : List Vec3Q
  scale : List Vec3Q
  rotation : List Vec4Q
deriving DecidableEq

/-- Embeds `Animator::updateAnimation(float deltaTime)` from `animator.cpp`:
advance the time, wrap by subtracting `times[times.size() - 1]` once when
exceeded, search the bracket with `std::upper_bound`, and translate the
identity matrix by the interpolated translation sample.  The rotation and
scale blocks of the source are commented out and contribute nothing.
`size_t` index arithmetic that wraps below zero (`times[times.size()-1]` on
an empty vector, `size_t(int(index - 1))` when `index = 0`) is an
out-of-bounds access and is modelled as such; `2 ^ 64 - 1` is the wrapped
64-bit value of `int(-1)`. -/
def updateAnimation (dt : ℚ) (s : AnimState) : Except AnimError (Mat4Q × AnimState) := do
  let retval : Mat4Q := idMat4Q
  let newTime0 := s.currentTime + dt
  let maxTime ← getE "times" s.times (s.times.length - 1)
  let newTime := if maxTime < newTime0 then newTime0 - maxTime else newTime0
  let index := upperBound s.times newTime
  if index = 0 then
    throw (.outOfBounds "times" (2 ^ 64 - 1))
  else
    let prevIndex := index - 1
    let tPrev ← getE "times" s.times prevIndex
    let tCur ← getE "times" s.times index
    let ratio := (newTime - tPrev) / (tCur - tPrev)
    let f ← getE "translation" s.translation prevIndex
    let t ← getE "translation" s.translation index
    let retval := glmTranslateQ retval (glmMixQ f t ratio)
    return (retval, { s with currentTime := newTime })

/-- Embeds `Animator::setTimes`: the first call binds the timeline index and
the times; a later call passes the `assert(timelineIndex == inTimelineIndex)`
check (and leaves the stored times unchanged) or fails it. -/
def setTimes (inTimelineIndex : Int) (inTimes : List ℚ) (s : AnimState) :
    Except AnimError AnimState :=
  if s.timelineIndex = -1 then
    .ok { s with timelineIndex := inTimelineIndex, times := inTimes }
  else if s.timelineIndex = inTimelineIndex then
    .ok s
  else
    .error .invariantViolation

/-- Embeds `Animator::setTranslation`: `assert(translation.size() == 0)`,
then store. -/
def setTranslation (inTrans : List Vec3Q) (s : AnimState) : Except AnimError AnimState :=
  if s.translation.length = 0 then
    .ok { s with translation := inTrans }
  else
    .error .invariantViolation

/-- Embeds `Animator::setRotation`: `assert(rotation.size() == 0)`,
then store. -/
def setRotation (inRots : List Vec4Q) (s : AnimState) : Except AnimError AnimState :=
  if s.rotation.length = 0 then
    .ok { s with rotation := inRots }
  else
    .error .invariantViolation

/-- Embeds `Animator::setScales`: `assert(scale.size() == 0)`, then store. -/
def setScales (inScales : List Vec3Q) (s : AnimState) : Except AnimError AnimState :=
  if s.scale.length = 0 then
    .ok { s with scale := inScales }
  else
    .error .invariantViolation

/-- Proof-engineering companion of `updateAnimation`: the same body as a
function of the three fields the method actually reads (`currentTime`,
`times`, `translation`), returning the matrix and the new time. -/
def updAux (dt ct : ℚ) (times : List ℚ) (trans : List Vec3Q) :
    Except AnimError (Mat4Q × ℚ) := do
  let retval : Mat4Q := idMat4Q
  let newTime0 := ct + dt
  let maxTime ← getE "times" times (times.length - 1)
  let newTime := if maxTime < newTime0 then newTime0 - maxTime else newTime0
  let index := upperBound times newTime
  if index = 0 then
    throw (.outOfBounds "times" (2 ^ 64 - 1))
  else
    let prevIndex := index - 1
    let tPrev ← getE "times" times prevIndex
    let tCur ← getE "times" times index
    let ratio := (newTime - tPrev) / (tCur - tPrev)
    let f ← getE "translation" trans prevIndex
    let t ← getE "translation" trans index
    let retval := glmTranslateQ retval (glmMixQ f t ratio)
    return (retval, newTime)

/-- Observation of the specification's `MissingData` failure mode: whether a
result is exactly that error. -/
def isMissingData {α : Type} : Except AnimError α → Bool
  | .error .missingData => true
  | _ => false

/-- Specification-side definition: the standard rotation matrix of the unit
quaternion stored as raw components (x, y, z, w) — the matrix a slerp-sampled
rotation channel would contribute to the pose according to the spec. -/
def rotMat4OfQuatQ (r : Vec4Q) : Mat4Q :=
  ⟨1 - 2*(r.y^2 + r.z^2), 2*(r.x*r.y - r.w*r.z), 2*(r.x*r.z + r.w*r.y), 0,
   2*(r.x*r.y + r.w*r.z), 1 - 2*(r.x^2 + r.z^2), 2*(r.y*r.z - r.w*r.x), 0,
   2*(r.x*r.z - r.w*r.y), 2*(r.y*r.z + r.w*r.x), 1 - 2*(r.x^2 + r.y^2), 0,
   0, 0, 0, 1⟩

/-! ### The `Transform` class (`transform.{h,cpp}`), embedded over ℝ -/

/-- Embeds `glm::vec3` with exact real components, for the `Transform`
embedding. -/
structure Vec3R where
  x : ℝ
  y : ℝ
  z : ℝ

/-- Embeds `glm::quat`: components stored as w, x, y, z. -/
structure QuatR where
  w : ℝ
  x : ℝ
  y : ℝ
  z : ℝ

/-- Componentwise vector product, `glm::vec3 operator*`. -/
def vmulR (a b : Vec3R) : Vec3R :=
  ⟨a.x * b.x, a.y * b.y, a.z * b.z⟩

/-- Componentwise vector sum, `glm::vec3 operator+`. -/
def vaddR (a b : Vec3R) : Vec3R :=
  ⟨a.x + b.x, a.y + b.y, a.z + b.z⟩

/-- Embeds `glm::quat operator*`, the Hamilton product as glm spells it out
componentwise. -/
def qmulR (p q : QuatR) : QuatR :=
  ⟨p.w * q.w - p.x * q.x - p.y * q.y - p.z * q.z,
   p.w * q.x + p.x * q.w + p.y * q.z - p.z * q.y,
   p.w * q.y + p.y * q.w + p.z * q.x - p.x * q.z,
   p.w * q.z + p.z * q.w + p.x * q.y - p.y * q.x⟩

/-- Embeds `glm::dot` on quaternions. -/
def qdotR (p q : QuatR) : ℝ :=
  p.x * q.x + p.y * q.y + p.z * q.z + p.w * q.w

/-- Embeds `glm::normalize` on quaternions: divide by the square-root length,
returning the identity quaternion when the length is not positive. -/
noncomputable def glmNormalizeQuatR (q : QuatR) : QuatR :=
  if Real.sqrt (qdotR q q) ≤ 0 then ⟨1, 0, 0, 0⟩
  else ⟨q.w * (1 / Real.sqrt (qdotR q q)), q.x * (1 / Real.sqrt (qdotR q q)),
    q.y * (1 / Real.sqrt (qdotR q q)), q.z * (1 / Real.sqrt (qdotR q q))⟩

/-- The fields of `class Transform` (`transform.h`), in declaration order. -/
structure Transform where
  scale : Vec3R
  rotation : QuatR
  translation : Vec3R

/-- Embeds `Transform::accumulate(const Transform&)`: the method mutates
`this`; the embedding returns the updated value. -/
noncomputable def Transform.accumulate (t inT : Transform) : Transform :=
  { rotation := glmNormalizeQuatR (qmulR t.rotation inT.rotation),
    scale := vmulR t.scale inT.scale,
    translation := vaddR t.translation inT.translation }

/-- Embeds `glm::mat4` over ℝ, indexed row-then-column (glm's `m[c][r]` is
entry `(r, c)` here). -/
abbrev Mat4R := Matrix (Fin 4) (Fin 4) ℝ

/-- Embeds `glm::translate(m, v)` over ℝ: columns 0–2 kept, column 3 replaced
by `m[0]*v.x + m[1]*v.y + m[2]*v.z + m[3]`. -/
def glmTranslateR (m : Mat4R) (v : Vec3R) : Mat4R :=
  Matrix.of fun i j =>
    if j = 3 then m i 0 * v.x + m i 1 * v.y + m i 2 * v.z + m i 3 else m i j

/-- Embeds `glm::scale(m, v)` over ℝ: columns 0–2 multiplied by the scale
components, column 3 kept. -/
def glmScaleR (m : Mat4R) (v : Vec3R) : Mat4R :=
  Matrix.of fun i j =>
    if j = 0 then m i 0 * v.x
    else if j = 1 then m i 1 * v.y
    else if j = 2 then m i 2 * v.z
    else m i j

/-- Embeds `glm::mat4(q)` (`mat4_cast`): the rotation matrix of a quaternion,
entries transcribed from glm's `mat3_cast` (glm's column-major `Result[c][r]`
is entry `(r, c)` here), with identity fourth row and column. -/
def mat4OfQuatR (q : QuatR) : Mat4R :=
  Matrix.of
    ![![1 - 2 * (q.y ^ 2 + q.z ^ 2), 2 * (q.x * q.y - q.w * q.z),
        2 * (q.x * q.z + q.w * q.y), 0],
      ![2 * (q.x * q.y + q.w * q.z), 1 - 2 * (q.x ^ 2 + q.z ^ 2),
        2 * (q.y * q.z - q.w * q.x), 0],
      ![2 * (q.x * q.z - q.w * q.y), 2 * (q.y * q.z + q.w * q.x),
        1 - 2 * (q.x ^ 2 + q.y ^ 2), 0],
      ![0, 0, 0, 1]]

/-- Embeds `Transform::toMaterix4()` (`transform.cpp`, name as in the
source): start from `glm::mat4(1.0f)`, translate, multiply by the rotation
matrix of the quaternion, scale. -/
noncomputable def Transform.toMaterix4 (t : Transform) : Mat4R :=
  glmScaleR (glmTranslateR 1 t.translation * mat4OfQuatR t.rotation) t.scale

/-- Specification-side: the canonical affine translation matrix `T(v)`. -/
def translationMatrixR (v : Vec3R) : Mat4R :=
  Matrix.of
    ![![1, 0, 0, v.x],
      ![0, 1, 0, v.y],
      ![0, 0, 1, v.z],
      ![0, 0, 0, 1]]

/-- Specification-side: the canonical affine scale matrix `S(v)`. -/
def scaleMatrixR (v : Vec3R) : Mat4R :=
  Matrix.of
    ![![v.x, 0, 0, 0],
      ![0, v.y, 0, 0],
      ![0, 0, v.z, 0],
      ![0, 0, 0, 1]]

/-- Interprets an embedded glm quaternion as a Mathlib quaternion. -/
def QuatR.toQuaternion (q : QuatR) : Quaternion ℝ :=
  ⟨q.w, q.x, q.y, q.z⟩

/-! ### Helper lemmas about the embedded animator -/

theorem getE_cons_zero {α : Type} (name : String) (x : α) (xs : List α) :
    getE name (x :: xs) 0 = .ok x := by
  simp [getE]

theorem getE_cons_succ_ok {α : Type} (name : String) (x a : α) (xs : List α) (i : Nat) :
    getE name (x :: xs) (i + 1) = .ok a ↔ getE name xs i = .ok a := by
  by_cases h : i < xs.length <;> simp [getE, Nat.succ_lt_succ_iff, h]

theorem getE_nil {α : Type} (name : String) (i : Nat) :
    getE name ([] : List α) i = .error (.outOfBounds name i) := by
  simp [getE]

theorem getE_error_shape {α : Type} {name : String} {l : List α} {i : Nat} {e : AnimError}
    (h : getE name l i = .error e) : e = .outOfBounds name i := by
  by_cases hi : i < l.length <;> simp [getE, hi] at h
  exact h.symm

/-- The value at the position the embedded `upper_bound` returns is strictly
greater than the query (when the position is in bounds). -/
theorem upperBound_gt {l : List ℚ} {q a : ℚ} {name : String}
    (h : getE name l (upperBound l q) = .ok a) : q < a := by
  induction l with
  | nil => simp [upperBound, getE_nil] at h
  | cons x xs ih =>
    by_cases hx : q < x
    · rw [upperBound, if_pos hx, getE_cons_zero] at h
      cases h
      exact hx
    · rw [upperBound, if_neg hx, getE_cons_succ_ok] at h
      exact ih h

/-- The element just before the `upper_bound` position is at most the query. -/
theorem upperBound_prev_le {l : List ℚ} {q a : ℚ} {name : String}
    (h0 : upperBound l q ≠ 0)
    (h : getE name l (upperBound l q - 1) = .ok a) : a ≤ q := by
  induction l with
  | nil => simp [upperBound, getE_nil] at h
  | cons x xs ih =>
    by_cases hx : q < x
    · rw [upperBound, if_pos hx] at h0
      exact absurd rfl h0
    · rw [upperBound, if_neg hx] at h
      rw [Nat.add_sub_cancel] at h
      by_cases hz : upperBound xs q = 0
      · rw [hz, getE_cons_zero] at h
        cases h
        exact le_of_not_lt hx
      · obtain ⟨k, hk⟩ := Nat.exists_eq_succ_of_ne_zero hz
        rw [hk] at h
        have : k = upperBound xs q - 1 := by omega
        rw [getE_cons_succ_ok, this] at h
        exact ih hz h

theorem updateAnimation_eq_aux (dt : ℚ) (s : AnimState) :
    updateAnimation dt s =
      (updAux dt s.currentTime s.times s.translation).map
        (fun p => (p.1, { s with currentTime := p.2 })) := by
  simp only [updateAnimation, updAux, bind, Except.bind]
  cases getE "times" s.times (s.times.length - 1) with
  | error e => simp [Except.map]
  | ok maxT =>
    by_cases hi : upperBound s.times (if maxT < s.currentTime + dt
        then s.currentTime + dt - maxT else s.currentTime + dt) = 0
    · simp [hi, Except.map, throw, throwThe, MonadExceptOf.throw]
    · simp only [if_neg hi]
      cases getE "times" s.times (upperBound s.times (if maxT < s.currentTime + dt
          then s.currentTime + dt - maxT else s.currentTime + dt) - 1) with
      | error e => simp [Except.map]
      | ok tp =>
        cases getE "times" s.times (upperBound s.times (if maxT < s.currentTime + dt
            then s.currentTime + dt - maxT else s.currentTime + dt)) with
        | error e => simp [Except.map]
        | ok tc =>
          cases getE "translation" s.translation (upperBound s.times
              (if maxT < s.currentTime + dt
                then s.currentTime + dt - maxT else s.currentTime + dt) - 1) with
          | error e => simp [Except.map]
          | ok f =>
            cases getE "translation" s.translation (upperBound s.times
                (if maxT < s.currentTime + dt
                  then s.currentTime + dt - maxT else s.currentTime + dt)) with
            | error e => simp [Except.map]
            | ok t => simp [Except.map, pure, Except.pure]

/-- Every run of the embedded `updateAnimation` either hits an out-of-bounds
array access or returns a translated identity matrix together with the new
(possibly wrapped) time. -/
theorem updAux_cases (dt ct : ℚ) (times : List ℚ) (trans : List Vec3Q) :
    (∃ n i, updAux dt ct times trans = .error (.outOfBounds n i)) ∨
    (∃ v q, updAux dt ct times trans = .ok (glmTranslateQ idMat4Q v, q)) := by
  simp only [updAux, bind, Except.bind]
  cases hmax : getE "times" times (times.length - 1) with
  | error e =>
    exact .inl ⟨"times", times.length - 1, by rw [getE_error_shape hmax]⟩
  | ok maxT =>
    by_cases hi : upperBound times (if maxT < ct + dt then ct + dt - maxT else ct + dt) = 0
    · exact .inl ⟨"times", 2 ^ 64 - 1, by simp [hi, throw, throwThe, MonadExceptOf.throw]⟩
    · simp only [if_neg hi]
      cases htp : getE "times" times (upperBound times (if maxT < ct + dt
          then ct + dt - maxT else ct + dt) - 1) with
      | error e =>
        exact .inl ⟨_, _, by rw [getE_error_shape htp]⟩
      | ok tp =>
        cases htc : getE "times" times (upperBound times (if maxT < ct + dt
            then ct + dt - maxT else ct + dt)) with
        | error e =>
          exact .inl ⟨_, _, by rw [getE_error_shape htc]⟩
        | ok tc =>
          cases hf : getE "translation" trans (upperBound times (if maxT < ct + dt
              then ct + dt - maxT else ct + dt) - 1) with
          | error e =>
            exact .inl ⟨_, _, by rw [getE_error_shape hf]⟩
          | ok f =>
            cases ht : getE "translation" trans (upperBound times (if maxT < ct + dt
                then ct + dt - maxT else ct + dt)) with
            | error e =>
              exact .inl ⟨_, _, by rw [getE_error_shape ht]⟩
            | ok t =>
              exact .inr ⟨glmMixQ f t (((if maxT < ct + dt then ct + dt - maxT
                  else ct + dt) - tp) / (tc - tp)),
                (if maxT < ct + dt then ct + dt - maxT else ct + dt),
                by simp [pure, Except.pure]⟩

/-- Success-path characterization of `updateAnimation`, symbolic in all the
intermediate values so that concrete runs can instantiate it cheaply. -/
theorem updateAnimation_ok_char (s : AnimState) (dt maxT q tp tc : ℚ) (f g : Vec3Q) (i : Nat)
    (hmax : getE "times" s.times (s.times.length - 1) = .ok maxT)
    (hq : (if maxT < s.currentTime + dt then s.currentTime + dt - maxT
            else s.currentTime + dt) = q)
    (hub : upperBound s.times q = i) (hi : ¬ i = 0)
    (htp : getE "times" s.times (i - 1) = .ok tp)
    (htc : getE "times" s.times i = .ok tc)
    (hf : getE "translation" s.translation (i - 1) = .ok f)
    (hg : getE "translation" s.translation i = .ok g) :
    updateAnimation dt s =
      .ok (glmTranslateQ idMat4Q (glmMixQ f g ((q - tp) / (tc - tp))),
        { s with currentTime := q }) := by
  simp only [updateAnimation, hmax, hq, hub, bind, Except.bind, if_neg hi]
  simp only [htp, htc, hf, hg, pure, Except.pure]

/-- Error-path characterization: a failing read of `times[times.size()-1]`
aborts the run with its out-of-bounds error. -/
theorem updateAnimation_err_char (s : AnimState) (dt : ℚ) (e : AnimError)
    (hmax : getE "times" s.times (s.times.length - 1) = .error e) :
    updateAnimation dt s = .error e := by
  simp only [updateAnimation, hmax, bind, Except.bind]

theorem updateAnimation_err_ub_zero (s : AnimState) (dt maxT q : ℚ)
    (hmax : getE "times" s.times (s.times.length - 1) = .ok maxT)
    (hq : (if maxT < s.currentTime + dt then s.currentTime + dt - maxT
            else s.currentTime + dt) = q)
    (hub : upperBound s.times q = 0) :
    updateAnimation dt s = .error (.outOfBounds "times" (2 ^ 64 - 1)) := by
  simp only [updateAnimation, hmax, hq, hub, bind, Except.bind, if_pos rfl]
  simp [throw, throwThe, MonadExceptOf.throw]

theorem updateAnimation_err_times_hi (s : AnimState) (dt maxT q tp : ℚ) (i : Nat)
    (e : AnimError)
    (hmax : getE "times" s.times (s.times.length - 1) = .ok maxT)
    (hq : (if maxT < s.currentTime + dt then s.currentTime + dt - maxT
            else s.currentTime + dt) = q)
    (hub : upperBound s.times q = i) (hi : ¬ i = 0)
    (htp : getE "times" s.times (i - 1) = .ok tp)
    (htc : getE "times" s.times i = .error e) :
    updateAnimation dt s = .error e := by
  simp only [updateAnimation, hmax, hq, hub, bind, Except.bind, if_neg hi]
  simp only [htp, htc]

theorem updateAnimation_err_trans_lo (s : AnimState) (dt maxT q tp tc : ℚ) (i : Nat)
    (e : AnimError)
    (hmax : getE "times" s.times (s.times.length - 1) = .ok maxT)
    (hq : (if maxT < s.currentTime + dt then s.currentTime + dt - maxT
            else s.currentTime + dt) = q)
    (hub : upperBound s.times q = i) (hi : ¬ i = 0)
    (htp : getE "times" s.times (i - 1) = .ok tp)
    (htc : getE "times" s.times i = .ok tc)
    (hf : getE "translation" s.translation (i - 1) = .error e) :
    updateAnimation dt s = .error e := by
  simp only [updateAnimation, hmax, hq, hub, bind, Except.bind, if_neg hi]
  simp only [htp, htc, hf]

/-- The matrix part of the result depends only on `currentTime`, `times` and
`translation`. -/
theorem updateAnimation_map_fst (dt : ℚ) (s : AnimState) :
    (updateAnimation dt s).map Prod.fst =
      (updAux dt s.currentTime s.times s.translation).map Prod.fst := by
  rw [updateAnimation_eq_aux]
  cases updAux dt s.currentTime s.times s.translation <;> simp [Except.map]

/-! ### Claims about the animator -/

/-- C1: code bug.  The spec demands the bracket be clamped so that a query at
the last sample time of timeline `[0, 1]` yields `lo = 0, hi = 1, ratio = 1`
with no out-of-bounds access; the code does not clamp: `upper_bound` returns
the one-past-the-end position 2 and the code reads `times[2]`, past the end of
the two-element timeline. -/
theorem updateAnimation_boundary_query_out_of_bounds :
    updateAnimation 1 ⟨0, 0, [0, 1], [⟨0,0,0⟩, ⟨1,0,0⟩], [], []⟩ =
      .error (.outOfBounds "times" 2) := by
  exact updateAnimation_err_times_hi _ 1 1 1 1 2 _
    (by norm_num [getE]) (by norm_num) (by norm_num [upperBound]) (by norm_num)
    (by norm_num [getE]) (by norm_num [getE])

/-- C3: single-lap wraparound worked example.  With timeline `[0, 1, 2]` and
translation samples `[(0,0,0), (1,0,0), (2,0,0)]`, starting at
`currentTime = 1.5`, one tick of `1.0` wraps the time to `0.5` and returns
the identity matrix translated by the interpolation `(0.5, 0, 0)` between the
samples at indices 0 and 1. -/
theorem updateAnimation_wraparound_example :
    updateAnimation 1 ⟨0, 3/2, [0, 1, 2], [⟨0,0,0⟩, ⟨1,0,0⟩, ⟨2,0,0⟩], [], []⟩ =
      .ok (glmTranslateQ idMat4Q ⟨1/2, 0, 0⟩,
        ⟨0, 1/2, [0, 1, 2], [⟨0,0,0⟩, ⟨1,0,0⟩, ⟨2,0,0⟩], [], []⟩) := by
  have h := updateAnimation_ok_char
    ⟨0, 3/2, [0, 1, 2], [⟨0,0,0⟩, ⟨1,0,0⟩, ⟨2,0,0⟩], [], []⟩ 1 2 (1/2) 0 1
    ⟨0,0,0⟩ ⟨1,0,0⟩ 1
    (by norm_num [getE]) (by norm_num) (by norm_num [upperBound]) (by norm_num)
    (by norm_num [getE]) (by norm_num [getE]) (by norm_num [getE]) (by norm_num [getE])
  rw [h]
  norm_num [glmMixQ]

/-- C2: counterexample.  Two animator states that differ only in the rotation
channel (identity quaternions versus 180°-about-x quaternions, both with unit
scale samples) produce the same matrix, and that matrix is the bare
translation, not the translation composed with the rotation matrix the
spec's slerp-sampled rotation would contribute (their row-1/column-1 entries
are 1 and -1). -/
theorem updateAnimation_rotation_slerp_counterexample :
    updateAnimation (1/2) ⟨0, 0, [0, 1], [⟨0,0,0⟩, ⟨1,0,0⟩],
        [⟨1,1,1⟩, ⟨1,1,1⟩], [⟨1,0,0,0⟩, ⟨1,0,0,0⟩]⟩ =
      .ok (glmTranslateQ idMat4Q ⟨1/2, 0, 0⟩,
        ⟨0, 1/2, [0, 1], [⟨0,0,0⟩, ⟨1,0,0⟩],
          [⟨1,1,1⟩, ⟨1,1,1⟩], [⟨1,0,0,0⟩, ⟨1,0,0,0⟩]⟩) ∧
    (updateAnimation (1/2) ⟨0, 0, [0, 1], [⟨0,0,0⟩, ⟨1,0,0⟩],
        [⟨1,1,1⟩, ⟨1,1,1⟩], [⟨0,0,0,1⟩, ⟨0,0,0,1⟩]⟩).map Prod.fst =
      (updateAnimation (1/2) ⟨0, 0, [0, 1], [⟨0,0,0⟩, ⟨1,0,0⟩],
        [⟨1,1,1⟩, ⟨1,1,1⟩], [⟨1,0,0,0⟩, ⟨1,0,0,0⟩]⟩).map Prod.fst ∧
    (glmTranslateQ idMat4Q ⟨1/2, 0, 0⟩).m11 = 1 ∧
    (mulMat4Q (glmTranslateQ idMat4Q ⟨1/2, 0, 0⟩) (rotMat4OfQuatQ ⟨1,0,0,0⟩)).m11 = -1 ∧
    glmTranslateQ idMat4Q ⟨1/2, 0, 0⟩ ≠
      mulMat4Q (glmTranslateQ idMat4Q ⟨1/2, 0, 0⟩) (rotMat4OfQuatQ ⟨1,0,0,0⟩) := by
  have hB := updateAnimation_ok_char
    ⟨0, 0, [0, 1], [⟨0,0,0⟩, ⟨1,0,0⟩], [⟨1,1,1⟩, ⟨1,1,1⟩], [⟨1,0,0,0⟩, ⟨1,0,0,0⟩]⟩
    (1/2) 1 (1/2) 0 1 ⟨0,0,0⟩ ⟨1,0,0⟩ 1
    (by norm_num [getE]) (by norm_num) (by norm_num [upperBound]) (by norm_num)
    (by norm_num [getE]) (by norm_num [getE]) (by norm_num [getE]) (by norm_num [getE])
  have hA := updateAnimation_ok_char
    ⟨0, 0, [0, 1], [⟨0,0,0⟩, ⟨1,0,0⟩], [⟨1,1,1⟩, ⟨1,1,1⟩], [⟨0,0,0,1⟩, ⟨0,0,0,1⟩]⟩
    (1/2) 1 (1/2) 0 1 ⟨0,0,0⟩ ⟨1,0,0⟩ 1
    (by norm_num [getE]) (by norm_num) (by norm_num [upperBound]) (by norm_num)
    (by norm_num [getE]) (by norm_num [getE]) (by norm_num [getE]) (by norm_num [getE])
  refine ⟨?_, ?_, ?_, ?_, ?_⟩
  · rw [hB]; norm_num [glmMixQ]
  · rw [hA, hB]; simp [Except.map]
  · norm_num [glmTranslateQ, idMat4Q]
  · norm_num [glmTranslateQ, idMat4Q, mulMat4Q, rotMat4OfQuatQ]
  · norm_num [glmTranslateQ, idMat4Q, mulMat4Q, rotMat4OfQuatQ, Mat4Q.mk.injEq]

/-- C2 (amended): each tick samples only the translation channel.  On the
success path the returned matrix is the identity translated by the linear
interpolation of the bracketing translation samples, and replacing the
rotation and scale channels by arbitrary arrays never changes the returned
matrix. -/
theorem updateAnimation_translation_only (s : AnimState) (dt maxT q tp tc : ℚ)
    (f g : Vec3Q) (i : Nat)
    (hmax : getE "times" s.times (s.times.length - 1) = .ok maxT)
    (hq : (if maxT < s.currentTime + dt then s.currentTime + dt - maxT
            else s.currentTime + dt) = q)
    (hub : upperBound s.times q = i) (hi : ¬ i = 0)
    (htp : getE "times" s.times (i - 1) = .ok tp)
    (htc : getE "times" s.times i = .ok tc)
    (hf : getE "translation" s.translation (i - 1) = .ok f)
    (hg : getE "translation" s.translation i = .ok g) :
    updateAnimation dt s =
      .ok (glmTranslateQ idMat4Q (glmMixQ f g ((q - tp) / (tc - tp))),
        { s with currentTime := q }) ∧
    ∀ (r' : List Vec4Q) (sc' : List Vec3Q),
      (updateAnimation dt { s with rotation := r', scale := sc' }).map Prod.fst =
        (updateAnimation dt s).map Prod.fst := by
  refine ⟨updateAnimation_ok_char s dt maxT q tp tc f g i
    hmax hq hub hi htp htc hf hg, ?_⟩
  intro r' sc'
  rw [updateAnimation_map_fst, updateAnimation_map_fst]

/-- C2 witness: the amended claim at timeline `[0, 2]` with translation
samples `[(0,0,0), (4,2,0)]`, `currentTime = 0` and a tick of 1. -/
theorem updateAnimation_translation_only_witness :
    updateAnimation 1 ⟨0, 0, [0, 2], [⟨0,0,0⟩, ⟨4,2,0⟩], [], []⟩ =
      .ok (glmTranslateQ idMat4Q (glmMixQ ⟨0,0,0⟩ ⟨4,2,0⟩ ((1 - 0) / (2 - 0))),
        ⟨0, 1, [0, 2], [⟨0,0,0⟩, ⟨4,2,0⟩], [], []⟩) ∧
    (updateAnimation 1 ⟨0, 0, [0, 2], [⟨0,0,0⟩, ⟨4,2,0⟩],
        [⟨5,5,5⟩], [⟨1,2,3,4⟩]⟩).map Prod.fst =
      (updateAnimation 1 ⟨0, 0, [0, 2], [⟨0,0,0⟩, ⟨4,2,0⟩], [], []⟩).map Prod.fst := by
  have h := updateAnimation_translation_only
    ⟨0, 0, [0, 2], [⟨0,0,0⟩, ⟨4,2,0⟩], [], []⟩ 1 2 1 0 2 ⟨0,0,0⟩ ⟨4,2,0⟩ 1
    (by norm_num [getE]) (by norm_num) (by norm_num [upperBound]) (by norm_num)
    (by norm_num [getE]) (by norm_num [getE]) (by norm_num [getE]) (by norm_num [getE])
  exact ⟨h.1, h.2 [⟨1,2,3,4⟩] [⟨5,5,5⟩]⟩

/-- C4: counterexample.  A track with no timeline, a one-sample timeline, or
an empty translation channel does not make `tick` fail with the spec's
`MissingData` error: the code attempts to sample anyway and performs an
out-of-bounds array access. -/
theorem updateAnimation_missing_data_counterexample :
    updateAnimation 1 ⟨0, 0, [], [], [], []⟩ = .error (.outOfBounds "times" 0) ∧
    isMissingData (updateAnimation 1 ⟨0, 0, [], [], [], []⟩) = false ∧
    updateAnimation 1 ⟨0, 0, [0], [⟨0,0,0⟩], [], []⟩ =
      .error (.outOfBounds "times" 1) ∧
    isMissingData (updateAnimation 1 ⟨0, 0, [0], [⟨0,0,0⟩], [], []⟩) = false ∧
    updateAnimation (1/2) ⟨0, 0, [0, 1], [], [], []⟩ =
      .error (.outOfBounds "translation" 0) ∧
    isMissingData (updateAnimation (1/2) ⟨0, 0, [0, 1], [], [], []⟩) = false := by
  have h1 : updateAnimation 1 (⟨0, 0, [], [], [], []⟩ : AnimState) =
      .error (.outOfBounds "times" 0) :=
    updateAnimation_err_char _ 1 _ (by norm_num [getE])
  have h2 : updateAnimation 1 (⟨0, 0, [0], [⟨0,0,0⟩], [], []⟩ : AnimState) =
      .error (.outOfBounds "times" 1) :=
    updateAnimation_err_times_hi _ 1 0 1 0 1 _
      (by norm_num [getE]) (by norm_num) (by norm_num [upperBound]) (by norm_num)
      (by norm_num [getE]) (by norm_num [getE])
  have h3 : updateAnimation (1/2) (⟨0, 0, [0, 1], [], [], []⟩ : AnimState) =
      .error (.outOfBounds "translation" 0) :=
    updateAnimation_err_trans_lo _ (1/2) 1 (1/2) 0 1 1 _
      (by norm_num [getE]) (by norm_num) (by norm_num [upperBound]) (by norm_num)
      (by norm_num [getE]) (by norm_num [getE]) (by norm_num [getE])
  exact ⟨h1, by rw [h1]; rfl, h2, by rw [h2]; rfl, h3, by rw [h3]; rfl⟩

/-- C4 (amended): the embedded `tick` has no missing-data validation at all —
no run of `updateAnimation`, on any state, produces the spec's `MissingData`
error (its only failures are out-of-bounds array accesses). -/
theorem updateAnimation_never_missing_data (dt : ℚ) (s : AnimState) :
    isMissingData (updateAnimation dt s) = false := by
  rw [updateAnimation_eq_aux]
  rcases updAux_cases dt s.currentTime s.times s.translation with ⟨n, i, h⟩ | ⟨v, q, h⟩ <;>
    rw [h] <;> rfl

/-- C5: for every bracket the code actually selects (the `upper_bound`
position is nonzero and both bracket reads are in bounds), the lower sample
time is at most the query, the upper one exceeds it, the denominator of the
interpolation ratio is strictly positive (so no NaN/Inf guard is ever
needed), and the ratio lies in `[0, 1]`. -/
theorem bracket_ratio_in_unit_interval (l : List ℚ) (q tp tc : ℚ)
    (h0 : ¬ upperBound l q = 0)
    (htp : getE "times" l (upperBound l q - 1) = .ok tp)
    (htc : getE "times" l (upperBound l q) = .ok tc) :
    tp ≤ q ∧ q < tc ∧ 0 < tc - tp ∧
      0 ≤ (q - tp) / (tc - tp) ∧ (q - tp) / (tc - tp) ≤ 1 := by
  have h1 : tp ≤ q := upperBound_prev_le h0 htp
  have h2 : q < tc := upperBound_gt htc
  have h3 : 0 < tc - tp := by linarith
  refine ⟨h1, h2, h3, div_nonneg (by linarith) h3.le, ?_⟩
  rw [div_le_one h3]
  linarith

/-- C5 witness: the bracket for query `0.5` on timeline `[0, 1]`. -/
theorem bracket_ratio_in_unit_interval_witness :
    (0 : ℚ) ≤ 1/2 ∧ (1/2 : ℚ) < 1 ∧ (0 : ℚ) < 1 - 0 ∧
      (0 : ℚ) ≤ (1/2 - 0) / (1 - 0) ∧ ((1/2 : ℚ) - 0) / (1 - 0) ≤ 1 := by
  exact bracket_ratio_in_unit_interval [0, 1] (1/2) 0 1
    (by norm_num [upperBound]) (by norm_num [upperBound, getE])
    (by norm_num [upperBound, getE])

/-- C6: counterexample.  On a track whose timeline was bound with index 0 and
times `[0, 1]`, a second `setTimes` call with the same index but the different
sequence `[5, 7]` is accepted (it does not fail with the fail-fast
`InvariantViolation`; the stored times stay `[0, 1]`), while a call with a
different index but the identical sequence `[0, 1]` fails — the check
compares the integer timeline index, not the sequence. -/
theorem setTimes_sequence_check_counterexample :
    setTimes 0 [5, 7] ⟨0, 0, [0, 1], [], [], []⟩ =
      .ok ⟨0, 0, [0, 1], [], [], []⟩ ∧
    setTimes 1 [0, 1] ⟨0, 0, [0, 1], [], [], []⟩ =
      .error .invariantViolation := by
  exact ⟨rfl, rfl⟩

/-- C6 (amended): the channel setters fail with the fail-fast assertion
(`InvariantViolation`) exactly when the channel already holds data, while
`setTimes` checks only the integer timeline index: a later call with the
matching index is accepted unchanged whatever sequence it passes, and a call
with a different index fails even if the sequence is identical. -/
theorem setters_single_bind_behavior (s : AnimState) (i i' : Int) (ts : List ℚ)
    (l : List Vec3Q) (r : List Vec4Q) (sc : List Vec3Q) :
    (s.translation ≠ [] → setTranslation l s = .error .invariantViolation) ∧
    (s.rotation ≠ [] → setRotation r s = .error .invariantViolation) ∧
    (s.scale ≠ [] → setScales sc s = .error .invariantViolation) ∧
    (s.translation = [] → setTranslation l s = .ok { s with translation := l }) ∧
    (s.timelineIndex = i → ¬ i = -1 → setTimes i ts s = .ok s) ∧
    (¬ s.timelineIndex = -1 → ¬ s.timelineIndex = i' →
      setTimes i' ts s = .error .invariantViolation) := by
  refine ⟨?_, ?_, ?_, ?_, ?_, ?_⟩
  · intro h; simp [setTranslation, List.length_eq_zero, h]
  · intro h; simp [setRotation, List.length_eq_zero, h]
  · intro h; simp [setScales, List.length_eq_zero, h]
  · intro h; simp [setTranslation, h]
  · intro h h'; simp [setTimes, h, h']
  · intro h h'; simp [setTimes, h, h']

/-- C7: counterexample.  After binding the two-sample timeline `[0, 1]`, the
setter accepts a three-sample translation array, leaving the track with a
non-empty channel whose length 3 differs from the timeline's length 2 — no
defensive length validation exists. -/
theorem setTranslation_length_mismatch_counterexample :
    setTranslation [⟨0,0,0⟩, ⟨0,0,0⟩, ⟨0,0,0⟩] ⟨0, 0, [0, 1], [], [], []⟩ =
      .ok ⟨0, 0, [0, 1], [⟨0,0,0⟩, ⟨0,0,0⟩, ⟨0,0,0⟩], [], []⟩ ∧
    (⟨0, 0, [0, 1], [⟨0,0,0⟩, ⟨0,0,0⟩, ⟨0,0,0⟩], [], []⟩ :
      AnimState).translation.length = 3 ∧
    (⟨0, 0, [0, 1], [⟨0,0,0⟩, ⟨0,0,0⟩, ⟨0,0,0⟩], [], []⟩ :
      AnimState).times.length = 2 := by
  exact ⟨rfl, rfl, rfl⟩

/-- C7 (amended): the setters perform no length validation — whenever a
channel is empty, a setter accepts a sample array of any length, regardless
of the bound timeline's length, so a non-empty channel's length need not
equal the timeline's. -/
theorem setters_no_length_validation (s : AnimState) (l : List Vec3Q)
    (r : List Vec4Q) (sc : List Vec3Q) :
    (s.translation = [] → setTranslation l s = .ok { s with translation := l } ∧
      ({ s with translation := l } : AnimState).translation.length = l.length ∧
      ({ s with translation := l } : AnimState).times = s.times) ∧
    (s.rotation = [] → setRotation r s = .ok { s with rotation := r }) ∧
    (s.scale = [] → setScales sc s = .ok { s with scale := sc }) := by
  refine ⟨?_, ?_, ?_⟩
  · intro h; exact ⟨by simp [setTranslation, h], rfl, rfl⟩
  · intro h; simp [setRotation, h]
  · intro h; simp [setScales, h]

/-- C10: for every state and tick, every successfully returned matrix is a
translated identity matrix (upper-left 3×3 block equal to the identity, the
interpolated translation in the fourth column), and the rotation and scale
sample arrays never influence the returned matrix: replacing them by
arbitrary arrays yields the same matrix result. -/
theorem updateAnimation_matrix_pure_translation (dt : ℚ) (s : AnimState) :
    (∀ M s', updateAnimation dt s = .ok (M, s') →
      ∃ v, M = glmTranslateQ idMat4Q v) ∧
    ∀ (r' : List Vec4Q) (sc' : List Vec3Q),
      (updateAnimation dt { s with rotation := r', scale := sc' }).map Prod.fst =
        (updateAnimation dt s).map Prod.fst := by
  constructor
  · intro M s' h
    rw [updateAnimation_eq_aux] at h
    rcases updAux_cases dt s.currentTime s.times s.translation with ⟨n, i, he⟩ | ⟨v, q, hok⟩
    · rw [he] at h
      simp [Except.map] at h
    · rw [hok] at h
      simp only [Except.map] at h
      cases h
      exact ⟨v, rfl⟩
  · intro r' sc'
    rw [updateAnimation_map_fst, updateAnimation_map_fst]

/-! ### Helper lemmas about the embedded `Transform` -/

theorem glmTranslateR_eq_mul (m : Mat4R) (v : Vec3R) :
    glmTranslateR m v = m * translationMatrixR v := by
  ext i j
  rw [Matrix.mul_apply, Fin.sum_univ_four]
  fin_cases j <;>
    simp +decide [glmTranslateR, translationMatrixR, Matrix.vecHead, Matrix.vecTail,
      Function.comp]

theorem glmScaleR_eq_mul (m : Mat4R) (v : Vec3R) :
    glmScaleR m v = m * scaleMatrixR v := by
  ext i j
  rw [Matrix.mul_apply, Fin.sum_univ_four]
  fin_cases j <;>
    simp +decide [glmScaleR, scaleMatrixR, Matrix.vecHead, Matrix.vecTail,
      Function.comp]

theorem translationMatrixR_zero : translationMatrixR ⟨0, 0, 0⟩ = 1 := by
  ext i j
  fin_cases i <;> fin_cases j <;>
    simp +decide [translationMatrixR, Matrix.one_apply, Matrix.vecHead, Matrix.vecTail,
      Function.comp]

theorem scaleMatrixR_one : scaleMatrixR ⟨1, 1, 1⟩ = 1 := by
  ext i j
  fin_cases i <;> fin_cases j <;>
    simp +decide [scaleMatrixR, Matrix.one_apply, Matrix.vecHead, Matrix.vecTail,
      Function.comp]

theorem mat4OfQuatR_id : mat4OfQuatR ⟨1, 0, 0, 0⟩ = 1 := by
  ext i j
  fin_cases i <;> fin_cases j <;>
    norm_num +decide [mat4OfQuatR, Matrix.one_apply, Matrix.vecHead, Matrix.vecTail,
      Function.comp]

theorem toQuaternion_qmulR (p q : QuatR) :
    (qmulR p q).toQuaternion = p.toQuaternion * q.toQuaternion := by
  ext <;>
    simp [qmulR, QuatR.toQuaternion, Quaternion.mul_re, Quaternion.mul_imI,
      Quaternion.mul_imJ, Quaternion.mul_imK] <;> ring

theorem qdotR_self (q : QuatR) :
    qdotR q q = Quaternion.normSq q.toQuaternion := by
  simp [qdotR, QuatR.toQuaternion, Quaternion.normSq_def']
  ring

theorem sqrt_qdotR (q : QuatR) :
    Real.sqrt (qdotR q q) = ‖q.toQuaternion‖ := by
  rw [qdotR_self, Quaternion.normSq_eq_norm_mul_self]
  exact Real.sqrt_mul_self (norm_nonneg _)

/-- Normalizing a nonzero embedded quaternion scales it by the inverse of its
norm and yields a unit quaternion. -/
theorem glmNormalizeQuatR_spec (q : QuatR) (h : q.toQuaternion ≠ 0) :
    (glmNormalizeQuatR q).toQuaternion = ‖q.toQuaternion‖⁻¹ • q.toQuaternion ∧
    ‖(glmNormalizeQuatR q).toQuaternion‖ = 1 := by
  have hlen : Real.sqrt (qdotR q q) = ‖q.toQuaternion‖ := sqrt_qdotR q
  have hpos : 0 < ‖q.toQuaternion‖ := norm_pos_iff.mpr h
  have hcond : ¬ Real.sqrt (qdotR q q) ≤ 0 := by
    rw [hlen]
    exact not_le.mpr hpos
  have heq : (glmNormalizeQuatR q).toQuaternion = ‖q.toQuaternion‖⁻¹ • q.toQuaternion := by
    rw [glmNormalizeQuatR, if_neg hcond]
    ext <;> simp [QuatR.toQuaternion, hlen, one_div, mul_comm]
  refine ⟨heq, ?_⟩
  rw [heq, norm_smul, norm_inv, norm_norm]
  exact inv_mul_cancel₀ (ne_of_gt hpos)

/-! ### Claims about the `Transform` class -/

/-- C8: `toMaterix4` is a pure function of the three fields and composes them
as translate-then-rotate-then-scale, i.e. the affine matrix `T * R * S`
(scale applied first); on the identity transform (unit scale, identity
quaternion, zero translation) it returns the 4×4 identity matrix. -/
theorem toMaterix4_is_TRS (t : Transform) :
    t.toMaterix4 =
      translationMatrixR t.translation * mat4OfQuatR t.rotation *
        scaleMatrixR t.scale ∧
    Transform.toMaterix4 ⟨⟨1, 1, 1⟩, ⟨1, 0, 0, 0⟩, ⟨0, 0, 0⟩⟩ = 1 := by
  constructor
  · rw [Transform.toMaterix4, glmScaleR_eq_mul, glmTranslateR_eq_mul, Matrix.one_mul]
  · rw [Transform.toMaterix4, glmScaleR_eq_mul, glmTranslateR_eq_mul, Matrix.one_mul]
    rw [translationMatrixR_zero, mat4OfQuatR_id, scaleMatrixR_one]
    simp

/-- C9: `accumulate` multiplies the scales componentwise, adds the
translations componentwise, and replaces the rotation by the normalized
quaternion product of the two rotations: viewed in the quaternion algebra,
the new rotation is the product scaled by the inverse of its norm, and it is
a unit quaternion whenever the product is nonzero. -/
theorem accumulate_spec (a b : Transform) :
    ((a.accumulate b).scale.x = a.scale.x * b.scale.x ∧
     (a.accumulate b).scale.y = a.scale.y * b.scale.y ∧
     (a.accumulate b).scale.z = a.scale.z * b.scale.z) ∧
    ((a.accumulate b).translation.x = a.translation.x + b.translation.x ∧
     (a.accumulate b).translation.y = a.translation.y + b.translation.y ∧
     (a.accumulate b).translation.z = a.translation.z + b.translation.z) ∧
    (a.rotation.toQuaternion * b.rotation.toQuaternion ≠ 0 →
      (a.accumulate b).rotation.toQuaternion =
        ‖a.rotation.toQuaternion * b.rotation.toQuaternion‖⁻¹ •
          (a.rotation.toQuaternion * b.rotation.toQuaternion) ∧
      ‖(a.accumulate b).rotation.toQuaternion‖ = 1) := by
  refine ⟨⟨rfl, rfl, rfl⟩, ⟨rfl, rfl, rfl⟩, ?_⟩
  intro hp
  have h : (qmulR a.rotation b.rotation).toQuaternion ≠ 0 := by
    rw [toQuaternion_qmulR]
    exact hp
  have hs := glmNormalizeQuatR_spec (qmulR a.rotation b.rotation) h
  constructor
  · show (glmNormalizeQuatR (qmulR a.rotation b.rotation)).toQuaternion = _
    rw [hs.1, toQuaternion_qmulR]
  · show ‖(glmNormalizeQuatR (qmulR a.rotation b.rotation)).toQuaternion‖ = 1
    exact hs.2
